import Mathlib

/-!
# maxscale-cdc: position model, checkpoint store, decoder, publisher, relay and protocol client

A shallow embedding of the Go package `cdc` (files `gtid.go`, `gtid_extractor.go`,
`gtid_store.go`, `kafka_sender.go`, `retry_reader.go`, `maxscale_reader.go`).

Conventions.
* A Go `string` / `[]byte` is a list of bytes; a byte is a natural number (below 256 for
  every value a Go program can hold; no definition here needs the bound).
* `uint32` / `uint64` are natural numbers, reduced `% 2^32` / `% 2^64` where the Go code
  converts or may wrap.
* A Go pointer `*GTID` is an `Option GTID` (`none` is `nil`); a Go `error` is an
  `Option Err` (`none` is `nil`); a Go result pair `(*GTID, error)` is a Lean pair.
-/

namespace cdc

/-- A byte string (Go `string` or `[]byte`). -/
abbrev Bytes := List Nat

/-- The bytes of an ASCII literal. -/
def ascii (s : String) : Bytes := s.toList.map Char.toNat

/-- Go error values produced by the package, one constructor per error site. -/
inductive Err where
  /-- Go `strconv.ParseUint`: `ErrSyntax`. -/
  | syntaxErr
  /-- Go `strconv.ParseUint`: `ErrRange`. -/
  | rangeErr
  /-- Source `gtid.go:37`: "parse gtid %s failed". -/
  | parseGtidFailed (gtid : Bytes)
  /-- Source `gtid.go:41`: "parse domain failed". -/
  | parseDomainFailed
  /-- Source `gtid.go:45`: "parse serverId failed". -/
  | parseServerIdFailed
  /-- Source `gtid.go:49`: "parse sequence id failed". -/
  | parseSequenceFailed
  /-- Source `gtid_extractor.go:36`: "unsupported format". -/
  | unsupportedFormat
  /-- Go `encoding/json`: a syntax error or a premature end of the input. -/
  | jsonSyntax
  /-- Go `encoding/json`: an `UnmarshalTypeError`. -/
  | jsonType
  /-- Go `os.ErrNotExist`: the file does not exist. -/
  | notExist
  /-- An error reported by an external collaborator (file system, network, broker),
  identified by a code. -/
  | external (code : Nat)
  /-- Source `maxscale_reader.go:42`: "Format invalid". -/
  | formatInvalid
  /-- Source `maxscale_reader.go:142`: "login failed". -/
  | loginFailed
  /-- Source `maxscale_reader.go:97`: "got error: %s". -/
  | gotError (line : Bytes)
  /-- Go `errors.Wrap(err, msg)` / `errors.Wrapf`: the cause with a message prefix. -/
  | wrap (msg : String) (cause : Err)
  deriving DecidableEq, Repr

/-- Go `errors.Wrap(err, msg)`: nil stays nil, anything else is wrapped. -/
def Wrap (err : Option Err) (msg : String) : Option Err :=
  match err with
  | none => none
  | some e => some (Err.wrap msg e)

/-! ## gtid.go -/

/-- Source `gtid.go:16-20`: the MariaDB global transaction id. `Domain` and `ServerId` are
`uint32`, `Sequence` is `uint64`. -/
structure GTID where
  Domain : Nat
  ServerId : Nat
  Sequence : Nat
  deriving DecidableEq, Repr

/-- Decimal digits of `n`, most significant first, pushed in front of `acc`
(`fmt`'s `%d` on an unsigned integer; `fuel` bounds the number of digits). -/
def formatUintAux : Nat → Nat → Bytes → Bytes
  | 0, _, acc => acc
  | fuel + 1, n, acc =>
    if n < 10 then (n + 48) :: acc
    else formatUintAux fuel (n / 10) ((n % 10 + 48) :: acc)

/-- The verb `%d` of `fmt.Sprintf` on an unsigned integer: its decimal numeral. -/
def formatUint (n : Nat) : Bytes := formatUintAux (n + 1) n []

/-- Source `gtid.go:23-28` `(*GTID).String`: empty for nil, otherwise `"%d-%d-%d"`. -/
def GTID.String (g : Option GTID) : Bytes :=
  match g with
  | none => []
  | some g => formatUint g.Domain ++ 45 :: (formatUint g.ServerId ++ 45 :: formatUint g.Sequence)

/-- Go `strings.Split(s, sep)` for a one-byte separator: the fields between the
occurrences of `sep` (always at least one field). -/
def Split (sep : Nat) : Bytes → List Bytes
  | [] => [[]]
  | c :: cs =>
    if c = sep then [] :: Split sep cs
    else
      match Split sep cs with
      | [] => [[c]]
      | p :: ps => (c :: p) :: ps

/-- The loop of Go `strconv.ParseUint(s, 10, 64)` from accumulator `n`:
a byte outside `'0'..'9'` is a syntax error; `n >= cutoff` (`cutoff = maxUint64/10 + 1`)
or a wrapped or too large `n*10 + d` is a range error. -/
def parseUintLoop : Nat → Bytes → Except Err Nat
  | n, [] => .ok n
  | n, c :: cs =>
    if 48 ≤ c ∧ c ≤ 57 then
      let d := c - 48
      if n ≥ (2 ^ 64 - 1) / 10 + 1 then .error Err.rangeErr
      else
        let n10 := (n * 10) % 2 ^ 64
        let n1 := (n10 + d) % 2 ^ 64
        if n1 < n10 ∨ n1 > 2 ^ 64 - 1 then .error Err.rangeErr
        else parseUintLoop n1 cs
    else .error Err.syntaxErr

/-- Go `strconv.ParseUint(s, 10, 64)`: the empty string is a syntax error. -/
def ParseUint64 (s : Bytes) : Except Err Nat :=
  match s with
  | [] => .error Err.syntaxErr
  | _ => parseUintLoop 0 s

/-- Source `gtid.go:31-56` `ParseGTID`. The three fields are parsed with bit size 64
(lines 39, 43, 47); `Domain` and `ServerId` are then converted with `uint32(...)`
(lines 52-53), which keeps the low 32 bits. -/
def ParseGTID (gtid : Bytes) : Option GTID × Option Err :=
  if gtid = [] then (none, none)
  else
    match Split 45 gtid with
    | [p0, p1, p2] =>
      match ParseUint64 p0 with
      | .error _ => (none, some Err.parseDomainFailed)
      | .ok domain =>
        match ParseUint64 p1 with
        | .error _ => (none, some Err.parseServerIdFailed)
        | .ok serverId =>
          match ParseUint64 p2 with
          | .error _ => (none, some Err.parseSequenceFailed)
          | .ok sequence =>
            (some { Domain := domain % 2 ^ 32, ServerId := serverId % 2 ^ 32,
                    Sequence := sequence }, none)
    | _ => (none, some (Err.parseGtidFailed gtid))

/-! ## gtid_store.go

The file `<dataDir>/lastgtid` (`gtid_store.go:45-47` fixes the path) is an `Option Bytes`:
its content, or `none` while it does not exist. An I/O failure other than absence
(permissions, device error) is an input `fault` of each file operation. -/

/-- Go `ioutil.ReadFile` on the store's path: a fault or the absence of the file is an
error (`Err.notExist` is `os.ErrNotExist`), otherwise the content is returned. -/
def ReadFile (fault : Option Err) (file : Option Bytes) : Except Err Bytes :=
  match fault with
  | some e => .error e
  | none =>
    match file with
    | none => .error Err.notExist
    | some c => .ok c

/-- Source `gtid_store.go:32-38` `(*gtidStore).Read`: every error of `ReadFile` is wrapped and
returned with a nil GTID; otherwise the content goes through `ParseGTID`. -/
def gtidStore.Read (fault : Option Err) (file : Option Bytes) : Option GTID × Option Err :=
  match ReadFile fault file with
  | .error e => (none, some (Err.wrap "read file failed" e))
  | .ok content => ParseGTID content

/-- Go `ioutil.WriteFile` on the store's path: without a fault the file holds exactly
`data` afterwards; with a fault the error is returned (what a failed write leaves in the
file is outside the model: the content is kept). -/
def WriteFile (fault : Option Err) (file : Option Bytes) (data : Bytes) :
    Option Bytes × Option Err :=
  match fault with
  | some e => (file, some e)
  | none => (some data, none)

/-- Source `gtid_store.go:41-43` `(*gtidStore).Write`: writes the text form of `gtid`. -/
def gtidStore.Write (fault : Option Err) (file : Option Bytes) (gtid : Option GTID) :
    Option Bytes × Option Err :=
  WriteFile fault file (GTID.String gtid)

/-! ## encoding/json

A model of `json.NewDecoder(r).Decode(&data)` from the Go standard library for a
destination of type `GTID`: the decoder reads one JSON value from the front of the input
(what follows it is not looked at), and fills the struct from an object's members. -/

namespace json

/-- Whitespace of the JSON scanner: space, tab, carriage return, line feed. -/
def isSpace (c : Nat) : Bool := c = 32 || c = 9 || c = 13 || c = 10

/-- Drop leading whitespace. -/
def skipSpace : Bytes → Bytes
  | [] => []
  | c :: cs => if isSpace c then skipSpace cs else c :: cs

/-- A decimal digit `'0'..'9'`. -/
def isDigit (c : Nat) : Bool := decide (48 ≤ c) && decide (c ≤ 57)

/-- Drop leading decimal digits. -/
def skipDigits : Bytes → Bytes
  | [] => []
  | c :: cs => if isDigit c then skipDigits cs else c :: cs

/-- Value of a hexadecimal digit. -/
def hexVal (c : Nat) : Option Nat :=
  if 48 ≤ c ∧ c ≤ 57 then some (c - 48)
  else if 97 ≤ c ∧ c ≤ 102 then some (c - 97 + 10)
  else if 65 ≤ c ∧ c ≤ 70 then some (c - 65 + 10)
  else none

/-- The four hexadecimal digits of a `\u` escape as a code unit. -/
def getu4 (a b c d : Nat) : Option Nat :=
  match hexVal a, hexVal b, hexVal c, hexVal d with
  | some a, some b, some c, some d => some (((a * 16 + b) * 16 + c) * 16 + d)
  | _, _, _, _ => none

/-- Go `utf8.EncodeRune`: surrogates and values above U+10FFFF become U+FFFD. -/
def EncodeRune (r : Nat) : Bytes :=
  if r < 128 then [r]
  else if r < 2048 then [192 + r / 64, 128 + r % 64]
  else if (55296 ≤ r ∧ r ≤ 57343) ∨ r > 1114111 then [239, 191, 189]
  else if r < 65536 then [224 + r / 4096, 128 + r / 64 % 64, 128 + r % 64]
  else [240 + r / 262144, 128 + r / 4096 % 64, 128 + r / 64 % 64, 128 + r % 64]

/-- Escape letters other than `u` and the byte each stands for. -/
def escapeByte (c : Nat) : Option Nat :=
  if c = 34 then some 34        -- \"
  else if c = 92 then some 92   -- \\
  else if c = 47 then some 47   -- \/
  else if c = 98 then some 8    -- \b
  else if c = 102 then some 12  -- \f
  else if c = 110 then some 10  -- \n
  else if c = 114 then some 13  -- \r
  else if c = 116 then some 9   -- \t
  else none

/-- A string literal after its opening quote: the unquoted text (accumulated after `acc`)
and the input after the closing quote; `none` for a control byte, a bad escape or a missing
closing quote. A `\u` escape holding a high surrogate combines with a following `\u` low
surrogate, any other surrogate becomes U+FFFD. Bytes from 128 up are copied as they are. -/
def scanString : Nat → Bytes → Bytes → Option (Bytes × Bytes)
  | 0, _, _ => none
  | _ + 1, _, [] => none
  | fuel + 1, acc, c :: cs =>
    if c = 34 then some (acc, cs)
    else if c = 92 then
      match cs with
      | [] => none
      | 117 :: a :: b :: x :: d :: rest =>
        match getu4 a b x d with
        | none => none
        | some rr =>
          if 55296 ≤ rr ∧ rr ≤ 57343 then
            match rest with
            | 92 :: 117 :: a1 :: b1 :: x1 :: d1 :: rest1 =>
              match getu4 a1 b1 x1 d1 with
              | some rr1 =>
                if rr < 56320 ∧ 56320 ≤ rr1 ∧ rr1 ≤ 57343 then
                  scanString fuel
                    (acc ++ EncodeRune ((rr - 55296) * 1024 + (rr1 - 56320) + 65536)) rest1
                else scanString fuel (acc ++ [239, 191, 189]) rest
              | none => scanString fuel (acc ++ [239, 191, 189]) rest
            | _ => scanString fuel (acc ++ [239, 191, 189]) rest
          else scanString fuel (acc ++ EncodeRune rr) rest
      | e :: rest =>
        match escapeByte e with
        | some b => scanString fuel (acc ++ [b]) rest
        | none => none
    else if c < 32 then none
    else scanString fuel (acc ++ [c]) cs

/-- The exponent part of a number, if any: `e` or `E`, an optional sign, digits. -/
def scanExp (inp : Bytes) : Option Bytes :=
  match inp with
  | c :: r =>
    if c = 101 ∨ c = 69 then
      let r1 := match r with
        | s :: r' => if s = 43 ∨ s = 45 then r' else r
        | [] => r
      match r1 with
      | d :: r2 => if isDigit d then some (skipDigits r2) else none
      | [] => none
    else some inp
  | [] => some inp

/-- The fraction part of a number, if any: `.` and digits; then the exponent part. -/
def scanFrac (inp : Bytes) : Option Bytes :=
  match inp with
  | c :: r =>
    if c = 46 then
      match r with
      | d :: r1 => if isDigit d then scanExp (skipDigits r1) else none
      | [] => none
    else scanExp inp
  | [] => some inp

/-- A number literal: optional `-`, then `0` or a digit `1..9` and digits, then the
optional fraction and exponent. Returns the input after the literal. -/
def scanNumber (inp : Bytes) : Option Bytes :=
  let r0 := match inp with
    | c :: r => if c = 45 then r else inp
    | [] => inp
  match r0 with
  | c :: r =>
    if c = 48 then scanFrac r
    else if 49 ≤ c ∧ c ≤ 57 then scanFrac (skipDigits r)
    else none
  | [] => none

/-- Strip `lit` from the front of `inp`. -/
def stripLiteral (lit inp : Bytes) : Option Bytes :=
  if lit.isPrefixOf inp then some (inp.drop lit.length) else none

/-- States of the value scanner between tokens. -/
inductive Mode where
  /-- A value must start here. -/
  | value
  /-- After `[`: a value or `]`. -/
  | valueOrEnd
  /-- After `{`: a key or `}`. -/
  | keyOrEnd
  /-- After `,` in an object: a key. -/
  | key
  /-- After a complete value. -/
  | afterValue
  deriving DecidableEq, Repr

/-- The scanner's nesting limit (`maxNestingDepth`). -/
def maxNestingDepth : Nat := 10000

/-- Scan one complete JSON value and return the input after it. `stack` holds the open
containers (`true` for an object, `false` for an array), `base` the number of containers
open around the scanned value. -/
def scan (base : Nat) : Nat → List Bool → Mode → Bytes → Option Bytes
  | 0, _, _, _ => none
  | fuel + 1, stack, mode, inp0 =>
    let inp := skipSpace inp0
    match mode with
    | .value =>
      match inp with
      | [] => none
      | c :: r =>
        if c = 123 then
          if base + stack.length + 1 ≤ maxNestingDepth then scan base fuel (true :: stack) .keyOrEnd r
          else none
        else if c = 91 then
          if base + stack.length + 1 ≤ maxNestingDepth then scan base fuel (false :: stack) .valueOrEnd r
          else none
        else if c = 34 then
          match scanString r.length [] r with
          | some (_, r1) => scan base fuel stack .afterValue r1
          | none => none
        else if c = 45 ∨ isDigit c then
          match scanNumber inp with
          | some r1 => scan base fuel stack .afterValue r1
          | none => none
        else if c = 116 then
          match stripLiteral (ascii "true") inp with
          | some r1 => scan base fuel stack .afterValue r1
          | none => none
        else if c = 102 then
          match stripLiteral (ascii "false") inp with
          | some r1 => scan base fuel stack .afterValue r1
          | none => none
        else if c = 110 then
          match stripLiteral (ascii "null") inp with
          | some r1 => scan base fuel stack .afterValue r1
          | none => none
        else none
    | .valueOrEnd =>
      match inp with
      | [] => none
      | c :: r =>
        if c = 93 then scan base fuel stack.tail .afterValue r
        else scan base fuel stack .value inp
    | .keyOrEnd =>
      match inp with
      | [] => none
      | c :: r =>
        if c = 125 then scan base fuel stack.tail .afterValue r
        else scan base fuel stack .key inp
    | .key =>
      match inp with
      | [] => none
      | c :: r =>
        if c = 34 then
          match scanString r.length [] r with
          | some (_, r1) =>
            match skipSpace r1 with
            | 58 :: r2 => scan base fuel stack .value r2
            | _ => none
          | none => none
        else none
    | .afterValue =>
      match stack with
      | [] => some inp0
      | true :: rest =>
        match inp with
        | [] => none
        | c :: r =>
          if c = 44 then scan base fuel stack .key r
          else if c = 125 then scan base fuel rest .afterValue r
          else none
      | false :: rest =>
        match inp with
        | [] => none
        | c :: r =>
          if c = 44 then scan base fuel stack .value r
          else if c = 93 then scan base fuel rest .afterValue r
          else none

/-- The kinds of JSON value the struct decoder tells apart; a number keeps its literal. -/
inductive Val where
  | null
  | bool
  | num (lit : Bytes)
  | str
  | arr
  | obj
  deriving DecidableEq, Repr

/-- The kind of the value starting at `inp` (which starts with a non-space byte). -/
def classify (inp rest : Bytes) : Val :=
  match inp with
  | c :: _ =>
    if c = 123 then .obj
    else if c = 91 then .arr
    else if c = 34 then .str
    else if c = 110 then .null
    else if c = 116 ∨ c = 102 then .bool
    else .num (inp.take (inp.length - rest.length))
  | [] => .null

/-- Scan the value at the front of `inp`, `base` containers deep: its kind and the input
after it, or `none` on a syntax error or a premature end of input. -/
def scanValue (base : Nat) (inp : Bytes) : Option (Val × Bytes) :=
  let inp1 := skipSpace inp
  match scan base (2 * inp1.length + 2) [] .value inp1 with
  | some rest => some (classify inp1 rest, rest)
  | none => none

/-- The members of an object, from the position where a key is expected up to the closing
brace: unquoted key and value kind, in input order. -/
def parseMembers : Nat → Bytes → Option (List (Bytes × Val))
  | 0, _ => none
  | fuel + 1, inp =>
    match skipSpace inp with
    | 34 :: r =>
      match scanString r.length [] r with
      | none => none
      | some (key, r1) =>
        match skipSpace r1 with
        | 58 :: r2 =>
          match scanValue 1 r2 with
          | none => none
          | some (v, r3) =>
            match skipSpace r3 with
            | 44 :: r4 => (parseMembers fuel r4).map (fun ms => (key, v) :: ms)
            | 125 :: _ => some [(key, v)]
            | _ => none
        | _ => none
    | _ => none

/-- The value at the front of the input, as the struct decoder sees it: the members of an
object, or the kind of another value. `none` is a syntax error (or premature end). -/
def readValue (line : Bytes) : Option (Val × List (Bytes × Val)) :=
  match skipSpace line with
  | 123 :: r =>
    match skipSpace r with
    | 125 :: _ => some (.obj, [])
    | _ => (parseMembers (r.length + 1) r).map (fun ms => (Val.obj, ms))
  | inp => (scanValue 0 inp).map (fun v => (v.1, []))

/-- The exported fields of `GTID`. -/
inductive Field where
  | Domain
  | ServerId
  | Sequence
  deriving DecidableEq, Repr

/-- The JSON name of each field (struct tags, `gtid.go:17-19`). -/
def Field.name : Field → Bytes
  | .Domain => ascii "domain"
  | .ServerId => ascii "server_id"
  | .Sequence => ascii "sequence"

/-- The bit size of each field's type (`gtid.go:17-19`). -/
def Field.bitSize : Field → Nat
  | .Domain => 32
  | .ServerId => 32
  | .Sequence => 64

/-- The fields in declaration order. -/
def fields : List Field := [.Domain, .ServerId, .Sequence]

/-- Case folding of a key (`foldName`): ASCII letters to upper case, U+017F (long s) to
`S`, U+212A (Kelvin sign) to `K`. -/
def foldName : Bytes → Bytes
  | [] => []
  | [c] => [if 97 ≤ c ∧ c ≤ 122 then c - 32 else c]
  | [c, d] =>
    if c = 197 ∧ d = 191 then [83]
    else (if 97 ≤ c ∧ c ≤ 122 then c - 32 else c) :: foldName [d]
  | c :: d :: e :: rest =>
    if c = 197 ∧ d = 191 then 83 :: foldName (e :: rest)
    else if c = 226 ∧ d = 132 ∧ e = 170 then 75 :: foldName rest
    else (if 97 ≤ c ∧ c ≤ 122 then c - 32 else c) :: foldName (d :: e :: rest)

/-- The field a key selects: the one with exactly that name, else the one whose folded name
equals the folded key. -/
def lookupField (key : Bytes) : Option Field :=
  match fields.find? (fun f => f.name = key) with
  | some f => some f
  | none => fields.find? (fun f => foldName f.name = foldName key)

/-- Store `n` in a field. -/
def setField (f : Field) (n : Nat) (g : GTID) : GTID :=
  match f with
  | .Domain => { g with Domain := n }
  | .ServerId => { g with ServerId := n }
  | .Sequence => { g with Sequence := n }

/-- Read a field. -/
def getField (f : Field) (g : GTID) : Nat :=
  match f with
  | .Domain => g.Domain
  | .ServerId => g.ServerId
  | .Sequence => g.Sequence

/-- The decoder's `saveError`: only the first error is kept. -/
def saveError (saved : Option Err) (e : Err) : Option Err :=
  match saved with
  | none => some e
  | some s => some s

/-- A member value a field of bit size `bits` accepts: `null` (the field is left alone) or
a number literal that `strconv.ParseUint` reads and that fits the field. -/
def accepts (bits : Nat) : Val → Bool
  | .null => true
  | .num lit =>
    match ParseUint64 lit with
    | .ok n => decide (n < 2 ^ bits)
    | .error _ => false
  | _ => false

/-- Decode one object member into the struct: a key selecting no field is skipped; `null`
leaves the field alone; a number literal is read with `strconv.ParseUint(lit, 10, 64)` and
stored if it fits the field; everything else is an `UnmarshalTypeError`, saved while
decoding goes on. -/
def decodeMember (st : GTID × Option Err) (kv : Bytes × Val) : GTID × Option Err :=
  match lookupField kv.1 with
  | none => st
  | some f =>
    match kv.2 with
    | .null => st
    | .num lit =>
      match ParseUint64 lit with
      | .ok n =>
        if n < 2 ^ f.bitSize then (setField f n st.1, st.2)
        else (st.1, saveError st.2 Err.jsonType)
      | .error _ => (st.1, saveError st.2 Err.jsonType)
    | _ => (st.1, saveError st.2 Err.jsonType)

/-- Go `json.NewDecoder(bytes.NewBuffer(line)).Decode(&data)`: a syntax error leaves `data`
untouched; an object fills the fields its members select; `null` does nothing; any other
value is an `UnmarshalTypeError`. -/
def Decode (line : Bytes) (data : GTID) : GTID × Option Err :=
  match readValue line with
  | none => (data, some Err.jsonSyntax)
  | some (.obj, ms) => ms.foldl decodeMember (data, none)
  | some (.null, _) => (data, none)
  | some (_, _) => (data, some Err.jsonType)

end json

/-! ## gtid_extractor.go -/

/-- Source `gtid_extractor.go:29-38` `(*gtidExtractor).Parse`: for `"JSON"` the address of the
decoded struct is returned together with the wrapped decode error (line 34 returns
`&data` whether or not `err` is nil); any other format returns nil and an error. -/
def gtidExtractor.Parse (format : Bytes) (line : Bytes) : Option GTID × Option Err :=
  if format = ascii "JSON" then
    let r := json.Decode line { Domain := 0, ServerId := 0, Sequence := 0 }
    (some r.1, Wrap r.2 "decode json failed")
  else (none, some Err.unsupportedFormat)

/-! ## kafka_sender.go -/

/-- The fields of `sarama.ProducerMessage` the sender sets. -/
structure ProducerMessage where
  Topic : Bytes
  Key : Bytes
  Value : Bytes
  deriving DecidableEq, Repr

/-- Source `kafka_sender.go:32-37`. The collaborators are given by their behaviour:
`producer k msg` is the error returned by the `k`-th call of `SendMessage` (counted
from 0) when it is handed `msg`; `storeFault k` is the file-system fault met by the
`k`-th call of `gtidStore.Write`; `gtidExtractor` is the extractor's `Parse`. -/
structure kafkaSender where
  producer : Nat → ProducerMessage → Option Err
  kafkaTopic : Bytes
  storeFault : Nat → Option Err
  gtidExtractor : Bytes → Option GTID × Option Err

/-- What the sender has done to the outside: the `SendMessage` calls made, in order; those
of them the broker accepted; the checkpoint file; the number of `Write` calls. -/
structure SenderState where
  sent : List ProducerMessage
  published : List ProducerMessage
  file : Option Bytes
  writes : Nat
  deriving DecidableEq, Repr

/-- How the receive loop ends after the last record: the context is done
(`kafka_sender.go:45`) or the channel is closed (`kafka_sender.go:48`). -/
inductive ChanEnd where
  | ctxDone
  | closed
  deriving DecidableEq, Repr

/-- Source `kafka_sender.go:40-68` `(*kafkaSender).Send` on the records received from `ch`, in
order, followed by `fin`. Returns the error and the state of the outside world. -/
def kafkaSender.Send (k : kafkaSender) (st : SenderState) :
    List Bytes → ChanEnd → Option Err × SenderState
  | [], .ctxDone => (none, st)
  | [], .closed => (none, st)
  | data :: rest, fin =>
    match k.gtidExtractor data with
    | (_, some err) => (some (Err.wrap "extract gtid failed" err), st)
    | (gtid, none) =>
      let msg : ProducerMessage :=
        { Topic := k.kafkaTopic, Key := GTID.String gtid, Value := data }
      match k.producer st.sent.length msg with
      | some err =>
        (some (Err.wrap "send message to kafka failed" err),
          { st with sent := st.sent ++ [msg] })
      | none =>
        match gtidStore.Write (k.storeFault st.writes) st.file gtid with
        | (file, some err) =>
          (some (Err.wrap "save gtid failed" err),
            { sent := st.sent ++ [msg], published := st.published ++ [msg],
              file := file, writes := st.writes + 1 })
        | (file, none) =>
          kafkaSender.Send k
            { sent := st.sent ++ [msg], published := st.published ++ [msg],
              file := file, writes := st.writes + 1 } rest fin

/-! ## retry_reader.go -/

/-- The variables the relay goroutine of `(*retryReader).Read` works on
(`retry_reader.go:34-55`): `gtid`, the captured parameter that line 62 hands to the next
`reader.Read`, and the records sent on `outch` so far. -/
structure RelayState where
  gtid : Option GTID
  outch : List Bytes
  deriving DecidableEq, Repr

/-- What one turn of the relay's outer `select` receives: the context is done, `ch` is
closed, or a record arrives; `delivered` tells whether the inner `select` then sent the
record on `outch` (line 50) or saw the context done first (line 48). -/
inductive RelayEvent where
  | ctxDone
  | closed
  | line (data : Bytes) (delivered : Bool)
  deriving DecidableEq, Repr

/-- Source `retry_reader.go:43-52`: the relay handles one record. The extractor's error is only
logged (lines 44-46); when the record is sent on `outch`, `gtid = newGtid` is executed
(line 51) whatever the error was. -/
def relayRecord (gtidExtractor : Bytes → Option GTID × Option Err) (st : RelayState)
    (line : Bytes) (delivered : Bool) : RelayState :=
  let newGtid := (gtidExtractor line).1
  if delivered then { gtid := newGtid, outch := st.outch ++ [line] }
  else st

/-- Source `retry_reader.go:34-55`: the relay goroutine over the events it receives; it returns at
the first `ctxDone`, `closed` or undelivered record. -/
def relay (gtidExtractor : Bytes → Option GTID × Option Err) (st : RelayState) :
    List RelayEvent → RelayState
  | [] => st
  | .ctxDone :: _ => st
  | .closed :: _ => st
  | .line data true :: rest => relay gtidExtractor (relayRecord gtidExtractor st data true) rest
  | .line data false :: _ => relayRecord gtidExtractor st data false

/-! ## maxscale_reader.go -/

/-- Source `maxscale_reader.go:27-36` without the `Dialer`, which is part of `Network`. -/
structure MaxscaleReader where
  User : Bytes
  Password : Bytes
  UUID : Bytes
  Format : Bytes
  Database : Bytes
  Table : Bytes
  Version : Bytes
  deriving DecidableEq, Repr

/-- Outcome of one `reader.ReadBytes('\n')` on the buffered connection. -/
inductive LineRead where
  /-- Go `io.EOF`. -/
  | eof
  /-- Another read error. -/
  | err (e : Err)
  /-- A line. -/
  | line (data : Bytes)
  deriving DecidableEq, Repr

/-- The behaviour of everything outside the reader during one call of `Read`.
* `dial`: the error of `Dialer.Dial` (nil: a connection is returned).
* `write k p`: the `k`-th `conn.Write(p)`; `none` when all of `p` is accepted and the error
  is nil, `some (n, e)` when `n` bytes are accepted and error `e` is returned.
* `read k`: the chunk and the error of the `k`-th `conn.Read(buf)`.
* `sha1`: the digest function `crypto/sha1`.
* `lines k`: the `k`-th `reader.ReadBytes` of the streaming loop.
* `cancelled k`: the loop's `k`-th `select` finds `ctx.Done()` (line 82).
* `delivered k`: the `k`-th `ch <- line` wins over `ctx.Done()` (lines 104-105).
* `doneFirst`: the final `select` takes `ctx.Done()` (line 113). -/
structure Network where
  dial : Option Err
  write : Nat → Bytes → Option (Nat × Err)
  read : Nat → Bytes × Option Err
  sha1 : Bytes → Bytes
  lines : Nat → LineRead
  cancelled : Nat → Bool
  delivered : Nat → Bool
  doneFirst : Bool

/-- The connection as the reader has used it: all bytes accepted by `Write`, the numbers
of `Write` and `Read` calls, and whether `Close` ran. -/
structure Conn where
  written : Bytes
  writes : Nat
  reads : Nat
  closed : Bool
  deriving DecidableEq, Repr

/-- One `conn.Write(p)`. -/
def Conn.Write (env : Network) (c : Conn) (p : Bytes) : Conn × Option Err :=
  match env.write c.writes p with
  | none => ({ c with written := c.written ++ p, writes := c.writes + 1 }, none)
  | some (n, e) =>
    ({ c with written := c.written ++ p.take n, writes := c.writes + 1 }, some e)

/-- The digit of `hextable = "0123456789abcdef"` at index `d`. -/
def hexDigit (d : Nat) : Nat := if d < 10 then 48 + d else 87 + d

/-- Go `hex.Encode`: two lower-case hexadecimal digits per byte. -/
def hexEncode : Bytes → Bytes
  | [] => []
  | b :: bs => hexDigit (b / 16 % 16) :: hexDigit (b % 16) :: hexEncode bs

/-- Go `Write` of the `hex.NewEncoder(conn)`: `p` is encoded and written in chunks of 512
bytes (`bufferSize / 2`) until `p` is used up or a write fails. -/
def encoderWrite (env : Network) : Nat → Conn → Bytes → Conn × Option Err
  | 0, c, _ => (c, none)
  | fuel + 1, c, p =>
    if p = [] then (c, none)
    else
      match Conn.Write env c (hexEncode (p.take 512)) with
      | (c1, some e) => (c1, some e)
      | (c1, none) => encoderWrite env fuel c1 (p.drop 512)

/-- Source `maxscale_reader.go:156-172` `writeAuth`: hex of `"<user>:"`, then hex of the SHA-1
digest of the password. -/
def MaxscaleReader.writeAuth (m : MaxscaleReader) (env : Network) (c : Conn) :
    Conn × Option Err :=
  let p := m.User ++ ascii ":"
  match encoderWrite env p.length c p with
  | (c1, some e) => (c1, some (Err.wrap "hex encode failed" e))
  | (c1, none) =>
    let h := env.sha1 m.Password
    match encoderWrite env h.length c1 h with
    | (c2, some e) => (c2, some (Err.wrap "write failed" e))
    | (c2, none) => (c2, none)

/-- Source `maxscale_reader.go:174-179` `startsWith`. -/
def startsWith (line pre : Bytes) : Bool :=
  if line.length < pre.length then false
  else line.take pre.length == pre

/-- Source `maxscale_reader.go:147-154` `read`: one `conn.Read` into a buffer of 1024 bytes. -/
def MaxscaleReader.read (env : Network) (c : Conn) : Conn × Except Err Bytes :=
  let c1 := { c with reads := c.reads + 1 }
  match env.read c.reads with
  | (_, some e) => (c1, .error (Err.wrap "read failed" e))
  | (buf, none) => (c1, .ok (buf.take 1024))

/-- Source `maxscale_reader.go:133-145` `expectResponse`. -/
def MaxscaleReader.expectResponse (env : Network) (c : Conn) (expectedResponse : Bytes) :
    Conn × Option Err :=
  match MaxscaleReader.read env c with
  | (c1, .error e) => (c1, some e)
  | (c1, .ok buf) =>
    if !startsWith buf expectedResponse then (c1, some Err.loginFailed)
    else (c1, none)

/-- Source `maxscale_reader.go:121-131` `buildRequestCommand`: the buffer starts as
`"REQUEST-DATA "`; `"%s.%s"` is appended, then `".%s"` if `len(m.Version) > 0`, then
`" %s"` if `gtid != nil`. -/
def MaxscaleReader.buildRequestCommand (m : MaxscaleReader) (gtid : Option GTID) : Bytes :=
  let buf := ascii "REQUEST-DATA "
  let buf := buf ++ (m.Database ++ ascii "." ++ m.Table)
  let buf := if m.Version.length > 0 then buf ++ (ascii "." ++ m.Version) else buf
  let buf := if gtid ≠ none then buf ++ (ascii " " ++ GTID.String gtid) else buf
  buf

/-- Source `maxscale_reader.go:78-111`: the streaming goroutine from its `k`-th iteration on;
returns the value sent on `errs` and the records pushed to `ch`, or `none` while the loop
is still running when `fuel` iterations are over. -/
def streamLoop (env : Network) : Nat → Nat → List Bytes → Option (Option Err × List Bytes)
  | 0, _, _ => none
  | fuel + 1, k, pushed =>
    if env.cancelled k then some (none, pushed)
    else
      match env.lines k with
      | .eof => some (none, pushed)
      | .err e => some (some (Err.wrap "read line failed" e), pushed)
      | .line data =>
        if startsWith data (ascii "ERR") then some (some (Err.gotError data), pushed)
        else if env.delivered k then streamLoop env fuel (k + 1) (pushed ++ [data])
        else some (none, pushed)

/-- What a call of `Read` leaves behind: the returned error, the connection (`none` when
none was opened) and the records pushed to `ch`. -/
structure ReadResult where
  err : Option Err
  conn : Option Conn
  pushed : List Bytes
  deriving DecidableEq, Repr

/-- Source `maxscale_reader.go:40-118` `(*MaxscaleReader).Read`; `fuel` bounds the iterations of
the streaming loop, `none` means the loop is still running after that many. The deferred
`conn.Close()` runs on every return after a successful dial. -/
def MaxscaleReader.Read (m : MaxscaleReader) (env : Network) (fuel : Nat)
    (gtid : Option GTID) : Option ReadResult :=
  if m.Format ≠ ascii "JSON" ∧ m.Format ≠ ascii "AVRO" then
    some { err := some Err.formatInvalid, conn := none, pushed := [] }
  else
    match env.dial with
    | some e => some { err := some (Err.wrap "connect to cdc failed" e), conn := none, pushed := [] }
    | none =>
      let conn : Conn := { written := [], writes := 0, reads := 0, closed := false }
      match m.writeAuth env conn with
      | (c1, some e) => some { err := some e, conn := some { c1 with closed := true }, pushed := [] }
      | (c1, none) =>
        match MaxscaleReader.expectResponse env c1 (ascii "OK") with
        | (c2, some e) =>
          some { err := some e, conn := some { c2 with closed := true }, pushed := [] }
        | (c2, none) =>
          match Conn.Write env c2
              (ascii "REGISTER UUID=" ++ m.UUID ++ ascii ", TYPE=" ++ m.Format) with
          | (c3, some e) =>
            some { err := some (Err.wrap "register failed" e),
                   conn := some { c3 with closed := true }, pushed := [] }
          | (c3, none) =>
            match MaxscaleReader.expectResponse env c3 (ascii "OK") with
            | (c4, some e) =>
              some { err := some e, conn := some { c4 with closed := true }, pushed := [] }
            | (c4, none) =>
              match Conn.Write env c4 (m.buildRequestCommand gtid) with
              | (c5, some e) =>
                some { err := some (Err.wrap "write request to connection failed" e),
                       conn := some { c5 with closed := true }, pushed := [] }
              | (c5, none) =>
                match streamLoop env fuel 0 [] with
                | none => none
                | some (e, pushed) =>
                  some { err := if env.doneFirst then none else e,
                         conn := some { c5 with closed := true }, pushed := pushed }

/-! ## Auxiliary definitions for the statements -/

/-- A sender whose producer rejects its second message. -/
def senderFailingSecond : kafkaSender where
  producer := fun i _ => if i = 1 then some (Err.external 7) else none
  kafkaTopic := ascii "cdc"
  storeFault := fun _ => none
  gtidExtractor := gtidExtractor.Parse (ascii "JSON")

/-- The message `Send` builds for a record (`kafka_sender.go:54-58`). -/
def kafkaSender.message (k : kafkaSender) (data : Bytes) : ProducerMessage :=
  { Topic := k.kafkaTopic, Key := GTID.String (k.gtidExtractor data).1, Value := data }

/-- The checkpoint file after the records `rs` have all been published and stored. -/
def kafkaSender.checkpointAfter (k : kafkaSender) (file : Option Bytes) (rs : List Bytes) :
    Option Bytes :=
  match rs.getLast? with
  | none => file
  | some r => some (GTID.String (k.gtidExtractor r).1)

/-- A sender whose producer and store always succeed. -/
def senderAllOk : kafkaSender where
  producer := fun _ _ => none
  kafkaTopic := ascii "cdc"
  storeFault := fun _ => none
  gtidExtractor := gtidExtractor.Parse (ascii "JSON")

/-- A network whose server answers the auth line with `ERR access denied` (the digest
function is a stand-in returning three fixed bytes). -/
def networkRejecting : Network where
  dial := none
  write := fun _ _ => none
  read := fun _ => (ascii "ERR access denied", none)
  sha1 := fun _ => [1, 2, 255]
  lines := fun _ => .eof
  cancelled := fun _ => false
  delivered := fun _ => true
  doneFirst := false


/-! ## Lemmas on decimal numerals -/

theorem formatUintAux_acc (fuel n : Nat) (acc : Bytes) :
    formatUintAux fuel n acc = formatUintAux fuel n [] ++ acc := by
  induction fuel generalizing n acc with
  | zero => simp [formatUintAux]
  | succ k ih =>
    unfold formatUintAux
    split
    · simp
    · rw [ih (n / 10) ((n % 10 + 48) :: acc), ih (n / 10) [n % 10 + 48]]
      simp

theorem formatUintAux_fuel (fuel : Nat) :
    ∀ n acc, n < fuel → formatUintAux fuel n acc = formatUintAux (n + 1) n acc := by
  induction fuel using Nat.strong_induction_on with
  | _ fuel ih =>
    intro n acc hn
    cases fuel with
    | zero => omega
    | succ k =>
      unfold formatUintAux
      split
      · rfl
      · rename_i h10
        have h1 : n / 10 < k := by omega
        have h2 : n / 10 < n := by omega
        rw [ih k (by omega) (n / 10) _ h1]
        by_cases hk : n = k
        · subst hk; rw [ih n (by omega) (n / 10) _ h2]
        · rw [ih n (by omega) (n / 10) _ h2]

theorem formatUint_lt (n : Nat) (h : n < 10) : formatUint n = [n + 48] := by
  unfold formatUint formatUintAux
  simp [h]

theorem formatUint_ge (n : Nat) (h : 10 ≤ n) :
    formatUint n = formatUint (n / 10) ++ [n % 10 + 48] := by
  have h1 : ¬ n < 10 := by omega
  have h2 : n / 10 < n := by omega
  conv_lhs => unfold formatUint formatUintAux
  simp only [h1, if_false]
  rw [formatUintAux_fuel n (n / 10) _ h2, formatUintAux_acc]
  rfl

theorem formatUint_digits (n : Nat) : ∀ c ∈ formatUint n, 48 ≤ c ∧ c ≤ 57 := by
  induction n using Nat.strong_induction_on with
  | _ n ih =>
    by_cases h : n < 10
    · rw [formatUint_lt n h]; intro c hc; simp at hc; omega
    · rw [formatUint_ge n (by omega)]
      intro c hc
      rcases List.mem_append.mp hc with hc | hc
      · exact ih (n / 10) (by omega) c hc
      · simp at hc; omega

theorem formatUint_ne_nil (n : Nat) : formatUint n ≠ [] := by
  by_cases h : n < 10
  · rw [formatUint_lt n h]; simp
  · rw [formatUint_ge n (by omega)]; simp

theorem parseUintLoop_append (xs ys : Bytes) (n : Nat) :
    parseUintLoop n (xs ++ ys) = (parseUintLoop n xs).bind (fun m => parseUintLoop m ys) := by
  induction xs generalizing n with
  | nil => simp [parseUintLoop, Except.bind]
  | cons c cs ih =>
    simp only [List.cons_append, parseUintLoop]
    split
    · split
      · rfl
      · split
        · rfl
        · exact ih _
    · rfl

theorem parseUintLoop_formatUint (n : Nat) (h : n < 2 ^ 64) :
    parseUintLoop 0 (formatUint n) = .ok n := by
  induction n using Nat.strong_induction_on with
  | _ n ih =>
    by_cases h10 : n < 10
    · rw [formatUint_lt n h10]
      have h1 : 48 ≤ n + 48 ∧ n + 48 ≤ 57 := by omega
      simp only [parseUintLoop, h1, and_self, if_true]
      norm_num
      have h2 : n % 18446744073709551616 = n := Nat.mod_eq_of_lt (by omega)
      rw [h2, if_neg (by omega)]
    · rw [formatUint_ge n (by omega), parseUintLoop_append, ih (n / 10) (by omega) (by omega)]
      have h1 : 48 ≤ n % 10 + 48 ∧ n % 10 + 48 ≤ 57 := by omega
      have h2 : ¬ (n / 10 ≥ (2 ^ 64 - 1) / 10 + 1) := by norm_num at h ⊢; omega
      have h3 : (n / 10 * 10) % 2 ^ 64 = n / 10 * 10 := Nat.mod_eq_of_lt (by omega)
      have h4 : (n / 10 * 10 + (n % 10 + 48 - 48)) % 2 ^ 64 = n :=by
        rw [Nat.mod_eq_of_lt (by omega)]; omega
      simp only [Except.bind, parseUintLoop, h1, and_self, if_true, h2, if_false, h3, h4]
      have h5 : ¬ (n < n / 10 * 10 ∨ n > 2 ^ 64 - 1) := by omega
      simp only [h5, if_false]

theorem ParseUint64_formatUint (n : Nat) (h : n < 2 ^ 64) :
    ParseUint64 (formatUint n) = .ok n := by
  unfold ParseUint64
  have := formatUint_ne_nil n
  split
  · contradiction
  · exact parseUintLoop_formatUint n h

theorem Split_no_sep (sep : Nat) (xs : Bytes) (h : sep ∉ xs) : Split sep xs = [xs] := by
  induction xs with
  | nil => rfl
  | cons c cs ih =>
    have hc : c ≠ sep := fun e => h (by simp [e])
    have hcs : sep ∉ cs := fun e => h (by simp [e])
    simp [Split, hc, ih hcs]

theorem Split_append_sep (sep : Nat) (xs ys : Bytes) (h : sep ∉ xs) :
    Split sep (xs ++ sep :: ys) = xs :: Split sep ys := by
  induction xs with
  | nil => simp [Split]
  | cons c cs ih =>
    have hc : c ≠ sep := fun e => h (by simp [e])
    have hcs : sep ∉ cs := fun e => h (by simp [e])
    simp [Split, hc, ih hcs]

theorem formatUint_no_dash (n : Nat) : 45 ∉ formatUint n := by
  intro h
  have := formatUint_digits n 45 h
  omega

/-- C1: the text form round-trips: for every GTID whose fields fit their widths,
`ParseGTID (g.String())` returns no error and a non-nil GTID equal to `g` field by field. -/
theorem ParseGTID_String_roundtrip (g : GTID) (hd : g.Domain < 2 ^ 32)
    (hs : g.ServerId < 2 ^ 32) (hq : g.Sequence < 2 ^ 64) :
    ∃ g', ParseGTID (GTID.String (some g)) = (some g', none) ∧
      g'.Domain = g.Domain ∧ g'.ServerId = g.ServerId ∧ g'.Sequence = g.Sequence := by
  refine ⟨g, ?_, rfl, rfl, rfl⟩
  have hne : GTID.String (some g) ≠ [] := by
    simp only [GTID.String]
    intro h
    exact formatUint_ne_nil _ (List.append_eq_nil.mp h).1
  have hsplit : Split 45 (GTID.String (some g))
      = [formatUint g.Domain, formatUint g.ServerId, formatUint g.Sequence] := by
    simp only [GTID.String]
    rw [Split_append_sep _ _ _ (formatUint_no_dash _),
      Split_append_sep _ _ _ (formatUint_no_dash _), Split_no_sep _ _ (formatUint_no_dash _)]
  unfold ParseGTID
  rw [if_neg hne, hsplit]
  simp only [ParseUint64_formatUint _ (show g.Domain < 2 ^ 64 by omega),
    ParseUint64_formatUint _ (show g.ServerId < 2 ^ 64 by omega),
    ParseUint64_formatUint _ hq, Nat.mod_eq_of_lt hd, Nat.mod_eq_of_lt hs]

theorem ParseGTID_String_roundtrip_witness :
    ∃ g', ParseGTID (GTID.String (some ⟨4294967295, 7, 18446744073709551615⟩)) = (some g', none) ∧
      g'.Domain = 4294967295 ∧ g'.ServerId = 7 ∧ g'.Sequence = 18446744073709551615 :=
  ParseGTID_String_roundtrip ⟨4294967295, 7, 18446744073709551615⟩ (by decide) (by decide)
    (by decide)



/-! ## ParseGTID on text that is not a position -/

theorem parseUintLoop_nondigit (s : Bytes) (h : ∃ c ∈ s, ¬ (48 ≤ c ∧ c ≤ 57)) (n : Nat) :
    ∃ e, parseUintLoop n s = .error e := by
  induction s generalizing n with
  | nil => simp at h
  | cons c cs ih =>
    unfold parseUintLoop
    by_cases hc : 48 ≤ c ∧ c ≤ 57
    · have hcs : ∃ d ∈ cs, ¬ (48 ≤ d ∧ d ≤ 57) := by
        obtain ⟨d, hd, hbad⟩ := h
        rcases List.mem_cons.mp hd with rfl | hd
        · exact absurd hc hbad
        · exact ⟨d, hd, hbad⟩
      rw [if_pos hc]
      dsimp only
      split
      · exact ⟨_, rfl⟩
      · split
        · exact ⟨_, rfl⟩
        · exact ih hcs _
    · rw [if_neg hc]; exact ⟨_, rfl⟩

theorem ParseUint64_not_numeral (f : Bytes) (h : ¬ (f ≠ [] ∧ ∀ c ∈ f, 48 ≤ c ∧ c ≤ 57)) :
    ∃ e, ParseUint64 f = .error e := by
  unfold ParseUint64
  split
  · exact ⟨_, rfl⟩
  · rename_i hne
    have hne' : f ≠ [] := fun e => hne e
    have : ∃ c ∈ f, ¬ (48 ≤ c ∧ c ≤ 57) := by
      by_contra hall
      push_neg at hall
      exact h ⟨hne', fun c hc => by have := hall c hc; omega⟩
    exact parseUintLoop_nondigit f this 0

/-- C6: `ParseGTID ""` is nil with a nil error; a non-empty text that does not split on
`-` into exactly three fields, or one of whose fields is not a non-empty string of decimal
digits, gives an error together with a nil GTID. -/
theorem ParseGTID_not_position (s : Bytes) (hne : s ≠ [])
    (h : (Split 45 s).length ≠ 3 ∨
      ∃ f ∈ Split 45 s, ¬ (f ≠ [] ∧ ∀ c ∈ f, 48 ≤ c ∧ c ≤ 57)) :
    ParseGTID [] = (none, none) ∧ (ParseGTID s).1 = none ∧ (ParseGTID s).2 ≠ none := by
  refine ⟨rfl, ?_⟩
  unfold ParseGTID
  rw [if_neg hne]
  rcases hsplit : Split 45 s with _ | ⟨p0, _ | ⟨p1, _ | ⟨p2, _ | ⟨p3, r⟩⟩⟩⟩
  · simp
  · simp
  · simp
  · rw [hsplit] at h
    have hbad : ∃ f ∈ [p0, p1, p2], ¬ (f ≠ [] ∧ ∀ c ∈ f, 48 ≤ c ∧ c ≤ 57) := by
      rcases h with h | h
      · simp at h
      · exact h
    obtain ⟨f, hf, hbad⟩ := hbad
    obtain ⟨e, he⟩ := ParseUint64_not_numeral f hbad
    dsimp only
    rcases h0 : ParseUint64 p0 with e0 | d0
    · simp
    · rcases h1 : ParseUint64 p1 with e1 | d1
      · simp
      · rcases h2 : ParseUint64 p2 with e2 | d2
        · simp
        · exfalso
          simp only [List.mem_cons, List.mem_singleton, List.not_mem_nil, or_false] at hf
          rcases hf with rfl | rfl | rfl
          · rw [he] at h0; cases h0
          · rw [he] at h1; cases h1
          · rw [he] at h2; cases h2
  · simp

theorem ParseGTID_not_position_witness :
    ParseGTID [] = (none, none) ∧ (ParseGTID (ascii "1-x-3")).1 = none ∧
      (ParseGTID (ascii "1-x-3")).2 ≠ none :=
  ParseGTID_not_position (ascii "1-x-3") (by decide) (by decide)

/-- C7 (the code at the failing input): the text `4294967296-1-1`, whose first field does
not fit `uint32`, is accepted without error and read as the position `0-1-1`. -/
theorem ParseGTID_domain_wraps :
    ParseGTID (ascii "4294967296-1-1") = (some ⟨0, 1, 1⟩, none) := by
  decide

/-! ## The checkpoint store -/

/-- C5 (counterexample): with no checkpoint file and no other fault, `Read` returns an
error, not the pair of nil position and nil error. -/
theorem gtidStore_Read_missing_file_errors :
    gtidStore.Read none none = (none, some (Err.wrap "read file failed" Err.notExist)) ∧
      gtidStore.Read none none ≠ (none, none) := by
  decide

/-- C5 (amended): `Read` returns a nil error exactly when the file is read without fault
and its content parses; when no checkpoint file exists it returns the nil position
together with a non-nil error; when the file is read, the result is that of `ParseGTID`
on its content. -/
theorem gtidStore_Read_outcome (fault : Option Err) (file : Option Bytes) :
    ((gtidStore.Read fault file).2 = none ↔
        fault = none ∧ ∃ c, file = some c ∧ (ParseGTID c).2 = none) ∧
      (file = none →
        (gtidStore.Read fault file).1 = none ∧ (gtidStore.Read fault file).2 ≠ none) ∧
      (fault = none → ∀ c, file = some c → gtidStore.Read fault file = ParseGTID c) := by
  cases fault <;> cases file <;> simp [gtidStore.Read, ReadFile]

theorem gtidStore_Read_outcome_witness :
    (gtidStore.Read none none).1 = none ∧ (gtidStore.Read none none).2 ≠ none :=
  (gtidStore_Read_outcome none none).2.1 rfl

/-! ## The relay of the retry reader -/

/-- C2 (the code at the failing input): with last known position `0-1-5`, a record that
the JSON extractor fails to decode is forwarded, and the last known position becomes
`0-0-0`; with an extractor of another format it becomes nil. -/
theorem relay_decode_failure_overwrites_gtid :
    (gtidExtractor.Parse (ascii "JSON") (ascii "garbage\n")).2 ≠ none ∧
      relay (gtidExtractor.Parse (ascii "JSON")) ⟨some ⟨0, 1, 5⟩, []⟩
          [.line (ascii "garbage\n") true]
        = ⟨some ⟨0, 0, 0⟩, [ascii "garbage\n"]⟩ ∧
      relay (gtidExtractor.Parse (ascii "AVRO")) ⟨some ⟨0, 1, 5⟩, []⟩
          [.line (ascii "garbage\n") true]
        = ⟨none, [ascii "garbage\n"]⟩ := by
  decide

/-! ## The request command -/

/-- C10: the request command is `"REQUEST-DATA "`, the database, `"."`, the table, then
`"."` and the version exactly when the version is non-empty, then `" "` and the text form
of the position exactly when a position is given. -/
theorem buildRequestCommand_eq (m : MaxscaleReader) (g : Option GTID) :
    m.buildRequestCommand g =
      ascii "REQUEST-DATA " ++ m.Database ++ ascii "." ++ m.Table
        ++ (if m.Version = [] then [] else ascii "." ++ m.Version)
        ++ (match g with
            | none => []
            | some p => ascii " " ++ GTID.String (some p)) := by
  unfold MaxscaleReader.buildRequestCommand
  cases g with
  | none =>
    by_cases hv : m.Version = []
    · simp [hv]
    · have : m.Version.length > 0 := List.length_pos.mpr hv
      simp [hv, this]
  | some p =>
    by_cases hv : m.Version = []
    · simp [hv]
    · have : m.Version.length > 0 := List.length_pos.mpr hv
      simp [hv, this]


/-! ## The publisher -/

theorem Send_nil (k : kafkaSender) (st : SenderState) (fin : ChanEnd) :
    k.Send st [] fin = (none, st) := by
  cases fin <;> rfl

theorem Send_append (k : kafkaSender) (pre rest : List Bytes) (fin : ChanEnd) :
    ∀ st st1, k.Send st pre fin = (none, st1) →
      k.Send st (pre ++ rest) fin = k.Send st1 rest fin := by
  induction pre with
  | nil =>
    intro st st1 h
    rw [Send_nil] at h
    cases h
    rfl
  | cons data pre ih =>
    intro st st1 h
    simp only [List.cons_append]
    unfold kafkaSender.Send at h
    conv_lhs => unfold kafkaSender.Send
    rcases hdec : k.gtidExtractor data with ⟨gtid, _ | err⟩
    · rw [hdec] at h
      dsimp only at h ⊢
      rcases hpub : k.producer st.sent.length
          { Topic := k.kafkaTopic, Key := GTID.String gtid, Value := data } with _ | e
      · rw [hpub] at h
        dsimp only at h ⊢
        rcases hw : gtidStore.Write (k.storeFault st.writes) st.file gtid with ⟨file, _ | e⟩
        · rw [hw] at h
          dsimp only at h ⊢
          exact ih _ _ h
        · rw [hw] at h; simp at h
      · rw [hpub] at h; simp at h
    · rw [hdec] at h; simp at h

/-- C3: when the records before `data` were handled without error, `data` decodes and the
producer's `SendMessage` fails on it, `Send` returns a non-nil error; the checkpoint file
and the number of `Write` calls are those left by the previous records; the accepted
messages are unchanged; the failed call is the last `SendMessage` call, so no later record
is published. -/
theorem Send_publish_failure (k : kafkaSender) (st st1 : SenderState)
    (pre post : List Bytes) (data : Bytes) (fin : ChanEnd) (gtid : Option GTID) (e : Err)
    (hpre : k.Send st pre fin = (none, st1))
    (hdec : k.gtidExtractor data = (gtid, none))
    (hpub : k.producer st1.sent.length
      { Topic := k.kafkaTopic, Key := GTID.String gtid, Value := data } = some e) :
    (k.Send st (pre ++ data :: post) fin).1
        = some (Err.wrap "send message to kafka failed" e) ∧
      (k.Send st (pre ++ data :: post) fin).2.file = st1.file ∧
      (k.Send st (pre ++ data :: post) fin).2.writes = st1.writes ∧
      (k.Send st (pre ++ data :: post) fin).2.published = st1.published ∧
      (k.Send st (pre ++ data :: post) fin).2.sent = st1.sent ++
        [{ Topic := k.kafkaTopic, Key := GTID.String gtid, Value := data }] := by
  rw [Send_append k pre (data :: post) fin st st1 hpre]
  unfold kafkaSender.Send
  rw [hdec]
  dsimp only
  rw [hpub]
  simp

theorem Send_publish_failure_witness :
    (senderFailingSecond.Send ⟨[], [], none, 0⟩
        ([ascii "\x7b\"domain\":0,\"server_id\":1,\"sequence\":5\x7d\n"] ++
          ascii "\x7b\"domain\":0,\"server_id\":1,\"sequence\":6\x7d\n" ::
          [ascii "\x7b\"domain\":0,\"server_id\":1,\"sequence\":7\x7d\n"]) .closed).1
        = some (Err.wrap "send message to kafka failed" (Err.external 7)) ∧
      (senderFailingSecond.Send ⟨[], [], none, 0⟩
        ([ascii "\x7b\"domain\":0,\"server_id\":1,\"sequence\":5\x7d\n"] ++
          ascii "\x7b\"domain\":0,\"server_id\":1,\"sequence\":6\x7d\n" ::
          [ascii "\x7b\"domain\":0,\"server_id\":1,\"sequence\":7\x7d\n"]) .closed).2.file
        = some (ascii "0-1-5") :=
  have h := Send_publish_failure senderFailingSecond ⟨[], [], none, 0⟩
    ⟨[⟨ascii "cdc", ascii "0-1-5", ascii "\x7b\"domain\":0,\"server_id\":1,\"sequence\":5\x7d\n"⟩],
      [⟨ascii "cdc", ascii "0-1-5", ascii "\x7b\"domain\":0,\"server_id\":1,\"sequence\":5\x7d\n"⟩],
      some (ascii "0-1-5"), 1⟩
    [ascii "\x7b\"domain\":0,\"server_id\":1,\"sequence\":5\x7d\n"]
    [ascii "\x7b\"domain\":0,\"server_id\":1,\"sequence\":7\x7d\n"]
    (ascii "\x7b\"domain\":0,\"server_id\":1,\"sequence\":6\x7d\n") .closed (some ⟨0, 1, 6⟩)
    (Err.external 7) (by decide) (by decide) (by decide)
  ⟨h.1, h.2.1⟩

theorem checkpointAfter_cons (k : kafkaSender) (file : Option Bytes) (r : Bytes)
    (rs : List Bytes) :
    k.checkpointAfter (some (GTID.String (k.gtidExtractor r).1)) rs
      = k.checkpointAfter file (r :: rs) := by
  unfold kafkaSender.checkpointAfter
  cases rs with
  | nil => simp
  | cons a as =>
    rw [List.getLast?_cons_cons]
    cases h : (a :: as).getLast? with
    | none => simp at h
    | some x => rfl

/-- C4: when every record decodes, every `SendMessage` and every store write succeeds and
the channel is then closed, `Send` returns nil; it has issued one `SendMessage` per record,
in order, with key the text form of the record's position and value the record's bytes, all
accepted; it has called `Write` once per record; and for at least one record the checkpoint
file holds the text form of the last record's position. -/
theorem Send_all_succeed (k : kafkaSender) (rs : List Bytes)
    (hdec : ∀ r ∈ rs, (k.gtidExtractor r).2 = none)
    (hpub : ∀ i msg, k.producer i msg = none)
    (hstore : ∀ i, k.storeFault i = none) (st : SenderState) :
    k.Send st rs .closed =
      (none, { sent := st.sent ++ rs.map k.message,
               published := st.published ++ rs.map k.message,
               file := k.checkpointAfter st.file rs,
               writes := st.writes + rs.length }) := by
  induction rs generalizing st with
  | nil => simp [kafkaSender.Send, kafkaSender.checkpointAfter]
  | cons r rs ih =>
    have hr : (k.gtidExtractor r).2 = none := hdec r (by simp)
    have hrs : ∀ r' ∈ rs, (k.gtidExtractor r').2 = none :=
      fun r' h' => hdec r' (by simp [h'])
    unfold kafkaSender.Send
    rcases hx : k.gtidExtractor r with ⟨gtid, err⟩
    rw [hx] at hr
    dsimp only at hr
    subst hr
    dsimp only
    rw [hpub]
    dsimp only
    simp only [gtidStore.Write, WriteFile, hstore]
    rw [ih hrs]
    have hg : gtid = (k.gtidExtractor r).1 := by rw [hx]
    rw [hg, checkpointAfter_cons k st.file r rs]
    simp only [kafkaSender.message, List.map_cons, List.length_cons, List.append_assoc,
      List.singleton_append, Nat.add_assoc, Nat.add_comm 1]

theorem Send_all_succeed_witness :
    senderAllOk.Send ⟨[], [], none, 0⟩
        [ascii "\x7b\"domain\":0,\"server_id\":1,\"sequence\":5\x7d\n",
          ascii "\x7b\"domain\":0,\"server_id\":1,\"sequence\":6\x7d\n"] .closed =
      (none, { sent := [] ++ [ascii "\x7b\"domain\":0,\"server_id\":1,\"sequence\":5\x7d\n",
                 ascii "\x7b\"domain\":0,\"server_id\":1,\"sequence\":6\x7d\n"].map
                   senderAllOk.message,
               published := [] ++ [ascii "\x7b\"domain\":0,\"server_id\":1,\"sequence\":5\x7d\n",
                 ascii "\x7b\"domain\":0,\"server_id\":1,\"sequence\":6\x7d\n"].map
                   senderAllOk.message,
               file := senderAllOk.checkpointAfter none
                 [ascii "\x7b\"domain\":0,\"server_id\":1,\"sequence\":5\x7d\n",
                   ascii "\x7b\"domain\":0,\"server_id\":1,\"sequence\":6\x7d\n"],
               writes := 0 + 2 }) :=
  Send_all_succeed senderAllOk
    [ascii "\x7b\"domain\":0,\"server_id\":1,\"sequence\":5\x7d\n",
      ascii "\x7b\"domain\":0,\"server_id\":1,\"sequence\":6\x7d\n"]
    (by decide) (fun _ _ => rfl) (fun _ => rfl) ⟨[], [], none, 0⟩


/-! ## The protocol client: a rejected authentication -/

theorem hexEncode_append (a b : Bytes) : hexEncode (a ++ b) = hexEncode a ++ hexEncode b := by
  induction a with
  | nil => rfl
  | cons x xs ih => simp [hexEncode, ih]

theorem encoderWrite_ok (env : Network) (fuel : Nat) :
    ∀ (c c1 : Conn) (p : Bytes), p.length ≤ fuel → encoderWrite env fuel c p = (c1, none) →
      c1.written = c.written ++ hexEncode p ∧ c1.reads = c.reads ∧ c1.closed = c.closed := by
  induction fuel with
  | zero =>
    intro c c1 p hp h
    have : p = [] := List.length_eq_zero.mp (by omega)
    subst this
    simp only [encoderWrite, Prod.mk.injEq, and_true] at h
    subst h
    simp [hexEncode]
  | succ n ih =>
    intro c c1 p hp h
    unfold encoderWrite at h
    by_cases hnil : p = []
    · subst hnil
      simp only [if_true, Prod.mk.injEq, and_true] at h
      subst h
      simp [hexEncode]
    · rw [if_neg hnil] at h
      unfold Conn.Write at h
      rcases hw : env.write c.writes (hexEncode (List.take 512 p)) with _ | ⟨k, e⟩
      · rw [hw] at h
        dsimp only at h
        have hlen : (List.drop 512 p).length ≤ n := by
          have : 0 < p.length := List.length_pos.mpr hnil
          rw [List.length_drop]; omega
        obtain ⟨h1, h2, h3⟩ := ih _ c1 _ hlen h
        refine ⟨?_, h2, h3⟩
        rw [h1]
        dsimp only
        rw [List.append_assoc, ← hexEncode_append, List.take_append_drop]
      · rw [hw] at h
        simp at h

theorem startsWith_take (chunk : Bytes) :
    startsWith (chunk.take 1024) (ascii "OK") = startsWith chunk (ascii "OK") := by
  have hl : (ascii "OK").length = 2 := by decide
  unfold startsWith
  rw [hl, List.take_take, List.length_take]
  have : min 2 1024 = 2 := by decide
  rw [this]
  by_cases h : chunk.length < 2
  · have h' : min 1024 chunk.length < 2 := by omega
    simp [h, h']
  · have h' : ¬ min 1024 chunk.length < 2 := by omega
    simp [h, h']

/-- C9: with a supported format, a successful dial, the auth line written without error and
a first response chunk that does not start with `OK`, `Read` returns the error "login
failed"; the bytes written to the connection are exactly the hex of `"<user>:"` followed by
the hex of the password digest (no REGISTER, no REQUEST-DATA); nothing is pushed to the
channel; the connection is closed. -/
theorem Read_auth_rejected (m : MaxscaleReader) (env : Network) (fuel : Nat)
    (gtid : Option GTID) (chunk : Bytes)
    (hf : m.Format = ascii "JSON" ∨ m.Format = ascii "AVRO")
    (hd : env.dial = none)
    (hw : (m.writeAuth env ⟨[], 0, 0, false⟩).2 = none)
    (hr : env.read 0 = (chunk, none))
    (hok : startsWith chunk (ascii "OK") = false) :
    ∃ r c, m.Read env fuel gtid = some r ∧ r.err = some Err.loginFailed ∧
      r.pushed = [] ∧ r.conn = some c ∧ c.closed = true ∧
      c.written = hexEncode (m.User ++ ascii ":") ++ hexEncode (env.sha1 m.Password) := by
  have hfmt : ¬ (m.Format ≠ ascii "JSON" ∧ m.Format ≠ ascii "AVRO") := by
    rcases hf with h | h <;> simp [h]
  -- the connection after the auth line
  rcases hauth : m.writeAuth env ⟨[], 0, 0, false⟩ with ⟨c1, e1⟩
  rw [hauth] at hw
  dsimp only at hw
  subst hw
  have hc1 : c1.written = hexEncode (m.User ++ ascii ":") ++ hexEncode (env.sha1 m.Password)
      ∧ c1.reads = 0 := by
    unfold MaxscaleReader.writeAuth at hauth
    dsimp only at hauth
    rcases ha : encoderWrite env (m.User ++ ascii ":").length ⟨[], 0, 0, false⟩
        (m.User ++ ascii ":") with ⟨ca, _ | ea⟩
    · rw [ha] at hauth
      dsimp only at hauth
      rcases hb : encoderWrite env (env.sha1 m.Password).length ca (env.sha1 m.Password)
          with ⟨cb, _ | eb⟩
      · rw [hb] at hauth
        simp only [Prod.mk.injEq, and_true] at hauth
        subst hauth
        obtain ⟨a1, a2, _⟩ := encoderWrite_ok env _ _ _ _ (Nat.le_refl _) ha
        obtain ⟨b1, b2, _⟩ := encoderWrite_ok env _ _ _ _ (Nat.le_refl _) hb
        refine ⟨?_, ?_⟩
        · rw [b1, a1]; rfl
        · rw [b2, a2]
      · rw [hb] at hauth; simp at hauth
    · rw [ha] at hauth; simp at hauth
  refine ⟨⟨some Err.loginFailed, some ⟨c1.written, c1.writes, c1.reads + 1, true⟩, []⟩,
    ⟨c1.written, c1.writes, c1.reads + 1, true⟩, ?_, rfl, rfl, rfl, rfl, hc1.1⟩
  unfold MaxscaleReader.Read
  rw [if_neg hfmt, hd]
  dsimp only
  rw [hauth]
  dsimp only
  unfold MaxscaleReader.expectResponse MaxscaleReader.read
  rw [hc1.2, hr]
  dsimp only
  rw [startsWith_take, hok]
  rfl

theorem Read_auth_rejected_witness :
    ∃ r c, MaxscaleReader.Read
        ⟨ascii "u", ascii "p", ascii "id", ascii "JSON", ascii "db", ascii "t", []⟩
        networkRejecting 5 none = some r ∧ r.err = some Err.loginFailed ∧
      r.pushed = [] ∧ r.conn = some c ∧ c.closed = true ∧
      c.written = hexEncode (ascii "u" ++ ascii ":")
        ++ hexEncode (networkRejecting.sha1 (ascii "p")) :=
  Read_auth_rejected
    ⟨ascii "u", ascii "p", ascii "id", ascii "JSON", ascii "db", ascii "t", []⟩
    networkRejecting 5 none (ascii "ERR access denied") (by decide) (by decide) (by decide)
    (by decide) (by decide)


/-! ## The JSON extractor -/

theorem saveError_ne_none (saved : Option Err) (e : Err) : json.saveError saved e ≠ none := by
  cases saved <;> simp [json.saveError]

theorem decodeMember_err_mono (st : GTID × Option Err) (kv : Bytes × json.Val)
    (h : st.2 ≠ none) : (json.decodeMember st kv).2 ≠ none := by
  unfold json.decodeMember
  split
  · exact h
  · split
    · exact h
    · split
      · split
        · exact h
        · exact saveError_ne_none _ _
      · exact saveError_ne_none _ _
    · exact saveError_ne_none _ _

theorem foldl_decodeMember_err_mono (ms : List (Bytes × json.Val)) :
    ∀ st : GTID × Option Err, st.2 ≠ none → (ms.foldl json.decodeMember st).2 ≠ none := by
  induction ms with
  | nil => intro st h; exact h
  | cons kv ms ih => intro st h; exact ih _ (decodeMember_err_mono st kv h)

theorem decodeMember_rejected (st : GTID × Option Err) (kv : Bytes × json.Val)
    (f : json.Field) (hf : json.lookupField kv.1 = some f)
    (hbad : json.accepts f.bitSize kv.2 = false) : (json.decodeMember st kv).2 ≠ none := by
  unfold json.decodeMember
  rw [hf]
  dsimp only
  cases hv : kv.2 with
  | null => rw [hv] at hbad; simp [json.accepts] at hbad
  | num lit =>
    rw [hv] at hbad
    simp only [json.accepts] at hbad
    dsimp only
    cases hp : ParseUint64 lit with
    | error e => exact saveError_ne_none _ _
    | ok n =>
      rw [hp] at hbad
      have hn : ¬ n < 2 ^ f.bitSize := by simpa using hbad
      dsimp only
      rw [if_neg hn]
      exact saveError_ne_none _ _
  | bool => exact saveError_ne_none _ _
  | str => exact saveError_ne_none _ _
  | arr => exact saveError_ne_none _ _
  | obj => exact saveError_ne_none _ _

theorem decodeMember_accepted (st : GTID × Option Err) (kv : Bytes × json.Val)
    (hok : ∀ f, json.lookupField kv.1 = some f → json.accepts f.bitSize kv.2 = true) :
    (json.decodeMember st kv).2 = st.2 := by
  unfold json.decodeMember
  cases hf : json.lookupField kv.1 with
  | none => rfl
  | some f =>
    have hacc := hok f hf
    dsimp only
    cases hv : kv.2 with
    | null => rfl
    | num lit =>
      rw [hv] at hacc
      simp only [json.accepts] at hacc
      dsimp only
      cases hp : ParseUint64 lit with
      | error e => rw [hp] at hacc; simp at hacc
      | ok n =>
        rw [hp] at hacc
        have hn : n < 2 ^ f.bitSize := by simpa using hacc
        dsimp only
        rw [if_pos hn]
    | bool => rw [hv] at hacc; simp [json.accepts] at hacc
    | str => rw [hv] at hacc; simp [json.accepts] at hacc
    | arr => rw [hv] at hacc; simp [json.accepts] at hacc
    | obj => rw [hv] at hacc; simp [json.accepts] at hacc

theorem getField_setField_ne (f f1 : json.Field) (n : Nat) (g : GTID) (h : f1 ≠ f) :
    json.getField f (json.setField f1 n g) = json.getField f g := by
  cases f <;> cases f1 <;> first | rfl | exact absurd rfl h

theorem decodeMember_other_field (st : GTID × Option Err) (kv : Bytes × json.Val)
    (f : json.Field) (hf : json.lookupField kv.1 ≠ some f) :
    json.getField f (json.decodeMember st kv).1 = json.getField f st.1 := by
  unfold json.decodeMember
  rcases hl : json.lookupField kv.1 with _ | f1
  · rfl
  · have hne : f1 ≠ f := fun e => hf (by rw [hl, e])
    dsimp only
    split
    · rfl
    · split
      · split
        · exact getField_setField_ne f f1 _ _ hne
        · rfl
      · rfl
    · rfl

theorem foldl_decodeMember_accepted (ms : List (Bytes × json.Val))
    (hok : ∀ kv ∈ ms, ∀ f, json.lookupField kv.1 = some f →
      json.accepts f.bitSize kv.2 = true) :
    ∀ st : GTID × Option Err, (ms.foldl json.decodeMember st).2 = st.2 := by
  induction ms with
  | nil => intro st; rfl
  | cons kv ms ih =>
    intro st
    rw [List.foldl_cons, ih (fun kv' h' => hok kv' (by simp [h'])),
      decodeMember_accepted st kv (hok kv (by simp))]

theorem foldl_decodeMember_other_field (ms : List (Bytes × json.Val)) (f : json.Field)
    (hf : ∀ kv ∈ ms, json.lookupField kv.1 ≠ some f) :
    ∀ st : GTID × Option Err,
      json.getField f (ms.foldl json.decodeMember st).1 = json.getField f st.1 := by
  induction ms with
  | nil => intro st; rfl
  | cons kv ms ih =>
    intro st
    rw [List.foldl_cons, ih (fun kv' h' => hf kv' (by simp [h'])),
      decodeMember_other_field st kv f (hf kv (by simp))]

theorem foldl_decodeMember_rejected (ms : List (Bytes × json.Val))
    (hbad : ∃ kv ∈ ms, ∃ f, json.lookupField kv.1 = some f ∧
      json.accepts f.bitSize kv.2 = false) :
    ∀ st : GTID × Option Err, (ms.foldl json.decodeMember st).2 ≠ none := by
  induction ms with
  | nil => simp at hbad
  | cons kv ms ih =>
    intro st
    rw [List.foldl_cons]
    obtain ⟨kv', hmem, f, hf, hacc⟩ := hbad
    rcases List.mem_cons.mp hmem with rfl | hmem
    · exact foldl_decodeMember_err_mono ms _ (decodeMember_rejected st kv' f hf hacc)
    · exact ih ⟨kv', hmem, f, hf, hacc⟩ _

theorem Wrap_eq_none (e : Option Err) (msg : String) : Wrap e msg = none ↔ e = none := by
  cases e <;> simp [Wrap]

/-- C8 (counterexample): the well-formed JSON object `{}`, which lacks all three position
fields, is decoded without error to the zero-valued position. -/
theorem Parse_JSON_empty_object_no_error :
    (gtidExtractor.Parse (ascii "JSON") (ascii "\x7b\x7d")).2 = none ∧
      (gtidExtractor.Parse (ascii "JSON") (ascii "\x7b\x7d")).1 = some ⟨0, 0, 0⟩ := by
  decide

theorem skipSpace_head (l : Bytes) (c : Nat) (rest : Bytes)
    (h : json.skipSpace l = c :: rest) : json.isSpace c = false := by
  induction l with
  | nil => simp [json.skipSpace] at h
  | cons a as ih =>
    unfold json.skipSpace at h
    by_cases ha : json.isSpace a = true
    · rw [if_pos ha] at h; exact ih h
    · rw [if_neg ha] at h
      have : a = c := by injection h
      subst this
      simpa using ha

theorem skipSpace_fixed (c : Nat) (rest : Bytes) (h : json.isSpace c = false) :
    json.skipSpace (c :: rest) = c :: rest := by
  unfold json.skipSpace
  simp [h]

theorem readValue_blank (line : Bytes) (h : json.skipSpace line = []) :
    json.readValue line = none := by
  unfold json.readValue
  rw [h]
  rfl

theorem readValue_bad_start (line : Bytes) (c : Nat) (rest : Bytes)
    (h : json.skipSpace line = c :: rest)
    (h1 : c ≠ 123) (h2 : c ≠ 91) (h3 : c ≠ 34) (h4 : c ≠ 45) (h5 : ¬ (48 ≤ c ∧ c ≤ 57))
    (h6 : c ≠ 116) (h7 : c ≠ 102) (h8 : c ≠ 110) : json.readValue line = none := by
  have hsp : json.skipSpace (c :: rest) = c :: rest :=
    skipSpace_fixed c rest (skipSpace_head line c rest h)
  have hfuel : 2 * (c :: rest).length + 2 = (2 * rest.length + 3) + 1 := by
    simp only [List.length_cons]; omega
  have hdig : json.isDigit c = false := by
    unfold json.isDigit
    by_cases ha : 48 ≤ c
    · have hb : ¬ c ≤ 57 := fun hb => h5 ⟨ha, hb⟩
      simp [hb]
    · simp [ha]
  have hscan : json.scanValue 0 (c :: rest) = none := by
    unfold json.scanValue
    dsimp only
    rw [hsp, hfuel]
    unfold json.scan
    dsimp only
    rw [hsp]
    simp [h1, h2, h3, h4, hdig, h6, h7, h8]
  unfold json.readValue
  rw [h]
  split
  · rename_i r heq
    have : c = 123 := by injection heq
    exact absurd this h1
  · rename_i inp hne
    rw [hscan]
    rfl

/-- C8 (amended): for the JSON format, `Parse` always returns a non-nil position `g`, and
its error is nil exactly when the record begins with a JSON object in which every member
selecting a position field holds a value the field accepts (`null`, or an unsigned decimal
integer of the field's width), or begins with `null`. Hence an error is reported for every
record that does not begin with a well-formed JSON value, nested at most 10000 deep (in
particular a blank record and one whose first non-space byte cannot start a value), for a
leading value that is neither an
object nor `null`, and for an object in which a present position field is malformed. A
position field that no member of the leading object selects is zero in `g`, whether or not
an error is reported; when the record does not begin with an object, `g` is `0-0-0`. -/
theorem Parse_JSON_outcome (line : Bytes) :
    ∃ g, (gtidExtractor.Parse (ascii "JSON") line).1 = some g ∧
      ((gtidExtractor.Parse (ascii "JSON") line).2 = none ↔
        (∃ ms, json.readValue line = some (json.Val.obj, ms) ∧
          ∀ kv ∈ ms, ∀ f, json.lookupField kv.1 = some f →
            json.accepts f.bitSize kv.2 = true) ∨
        (∃ ms, json.readValue line = some (json.Val.null, ms))) ∧
      (∀ ms, json.readValue line = some (json.Val.obj, ms) →
        ∀ f, (∀ kv ∈ ms, json.lookupField kv.1 ≠ some f) → json.getField f g = 0) ∧
      ((∀ ms, json.readValue line ≠ some (json.Val.obj, ms)) → g = ⟨0, 0, 0⟩) ∧
      (json.skipSpace line = [] → json.readValue line = none) ∧
      (∀ c rest, json.skipSpace line = c :: rest →
        c ≠ 123 → c ≠ 91 → c ≠ 34 → c ≠ 45 → ¬ (48 ≤ c ∧ c ≤ 57) →
        c ≠ 116 → c ≠ 102 → c ≠ 110 → json.readValue line = none) := by
  unfold gtidExtractor.Parse
  rw [if_pos rfl]
  dsimp only
  refine ⟨_, rfl, ?_, ?_, ?_, readValue_blank line, readValue_bad_start line⟩
  · rw [Wrap_eq_none]
    unfold json.Decode
    constructor
    · intro hnone
      rcases hrv : json.readValue line with _ | ⟨v, ms⟩
      · rw [hrv] at hnone; simp at hnone
      · rw [hrv] at hnone
        cases v with
        | obj =>
          left
          refine ⟨ms, rfl, ?_⟩
          intro kv hkv f hf
          by_contra hacc
          have hfalse : json.accepts f.bitSize kv.2 = false := by simpa using hacc
          exact foldl_decodeMember_rejected ms ⟨kv, hkv, f, hf, hfalse⟩ _ hnone
        | null => right; exact ⟨ms, rfl⟩
        | bool => simp at hnone
        | num lit => simp at hnone
        | str => simp at hnone
        | arr => simp at hnone
    · rintro (⟨ms, hrv, hok⟩ | ⟨ms, hrv⟩)
      · rw [hrv]
        exact foldl_decodeMember_accepted ms hok _
      · rw [hrv]
  · intro ms hrv f hf
    unfold json.Decode
    rw [hrv]
    dsimp only
    rw [foldl_decodeMember_other_field ms f hf]
    cases f <;> rfl
  · intro hno
    unfold json.Decode
    rcases hrv : json.readValue line with _ | ⟨v, ms⟩
    · rfl
    · cases v with
      | obj => exact absurd hrv (hno ms)
      | null => rfl
      | bool => rfl
      | num lit => rfl
      | str => rfl
      | arr => rfl

theorem Parse_JSON_outcome_witness :
    ∃ g, (gtidExtractor.Parse (ascii "JSON")
          (ascii "\x7b\"domain\":3,\"sequence\":9\x7d")).1 = some g ∧
      (gtidExtractor.Parse (ascii "JSON")
          (ascii "\x7b\"domain\":3,\"sequence\":9\x7d")).2 = none ∧
      json.getField json.Field.ServerId g = 0 := by
  obtain ⟨g, hg, herr, hzero, _⟩ :=
    Parse_JSON_outcome (ascii "\x7b\"domain\":3,\"sequence\":9\x7d")
  exact ⟨g, hg,
    herr.mpr (Or.inl ⟨[(ascii "domain", json.Val.num (ascii "3")),
      (ascii "sequence", json.Val.num (ascii "9"))], by decide, by decide⟩),
    hzero [(ascii "domain", json.Val.num (ascii "3")),
      (ascii "sequence", json.Val.num (ascii "9"))] (by decide) json.Field.ServerId
      (by decide)⟩

end cdc
